import Mathlib

/-!
Shallow embedding of the transaction-extraction core of
`WSFS_TransactionsToCSV.py` (function `extract_data_from_pdf` and the
grouping/output logic of `main`), with theorems checking the
natural-language specification against it.

String operations are modelled over `List Char` with structural recursion
so that all definitions evaluate inside the kernel.
-/

namespace WSFS

/-! ### Python string primitives used by the script -/

/-- Splitter for Python `str.split()` with no argument: split on runs of
whitespace, discarding empty pieces.  `acc` holds the current word reversed. -/
def wordsAux : List Char → List Char → List (List Char)
  | [], acc => if acc.isEmpty then [] else [acc.reverse]
  | c :: cs, acc =>
    if c.isWhitespace then
      if acc.isEmpty then wordsAux cs [] else acc.reverse :: wordsAux cs []
    else
      wordsAux cs (c :: acc)

/-- Python `s.split()`. -/
def pySplit (s : String) : List String :=
  (wordsAux s.toList []).map String.mk

/-- Splitter for Python `s.split(sep)` with a one-character separator:
empty pieces are kept. -/
def splitOnCharAux (sep : Char) : List Char → List Char → List (List Char)
  | [], acc => [acc.reverse]
  | c :: cs, acc =>
    if c = sep then acc.reverse :: splitOnCharAux sep cs []
    else splitOnCharAux sep cs (c :: acc)

/-- Python `s.split(sep)` for a one-character separator. -/
def splitOnChar (sep : Char) (s : String) : List String :=
  (splitOnCharAux sep s.toList []).map String.mk

/-- Python `' '.join(ts)`. -/
def joinSpace : List String → String
  | [] => ""
  | [t] => t
  | t :: ts => t ++ " " ++ joinSpace ts

/-- Python `s.replace(',', '')`. -/
def stripCommas (s : String) : String :=
  String.mk (s.toList.filter (fun c => c ≠ ','))

/-- Python `''.join(c for c in s if c.isdigit())` (ASCII digits). -/
def digitsOf (s : String) : String :=
  String.mk (s.toList.filter Char.isDigit)

/-- Python `s.isdigit()` for the ASCII tokens this script sees:
nonempty and all digits. -/
def pyIsdigit (s : String) : Bool :=
  !s.toList.isEmpty && s.toList.all Char.isDigit

/-- Does `pat` occur at the start of `cs`? -/
def startsWithL : List Char → List Char → Bool
  | [], _ => true
  | _ :: _, [] => false
  | p :: ps, c :: cs => p = c && startsWithL ps cs

/-- Does `pat` occur anywhere in `cs`?  Python `pat in s`. -/
def containsL (pat : List Char) : List Char → Bool
  | [] => pat.isEmpty
  | c :: cs => startsWithL pat (c :: cs) || containsL pat cs

/-- Python `pat in s` (substring containment). -/
def containsSub (s pat : String) : Bool := containsL pat.toList s.toList

/-- Decimal value of a digit list. -/
def digitsToNat (cs : List Char) : Nat :=
  cs.foldl (fun n c => n * 10 + (c.toNat - '0'.toNat)) 0

/-- Python `int(s)` on an all-digit candidate: fails exactly on the empty
string (`ValueError`), otherwise the decimal value. -/
def pyInt? (s : String) : Option Nat :=
  if !s.toList.isEmpty && s.toList.all Char.isDigit then some (digitsToNat s.toList)
  else none

/-- Exponent part accepted by Python `float`: empty, or `e`/`E`, an optional
sign, and at least one digit. -/
def floatExponentOk : List Char → Bool
  | [] => true
  | c :: rest =>
    if c = 'e' ∨ c = 'E' then
      let rest2 := match rest with
        | d :: t => if d = '+' ∨ d = '-' then t else d :: t
        | [] => []
      !rest2.isEmpty && rest2.all Char.isDigit
    else false

/-- Mantissa-plus-exponent form accepted by Python `float`:
`digits[.digits]`, `.digits` or `digits.`, followed by an optional exponent. -/
def floatMantissaOk (cs : List Char) : Bool :=
  let ip := cs.takeWhile Char.isDigit
  let rest := cs.dropWhile Char.isDigit
  match rest with
  | '.' :: rest2 =>
    let fr := rest2.takeWhile Char.isDigit
    let rest3 := rest2.dropWhile Char.isDigit
    (!ip.isEmpty || !fr.isEmpty) && floatExponentOk rest3
  | _ => !ip.isEmpty && floatExponentOk rest

/-- Drop one leading `+`/`-`. -/
def dropSign : List Char → List Char
  | [] => []
  | c :: t => if c = '+' ∨ c = '-' then t else c :: t

/-- Whether `float(s)` succeeds in Python, for whitespace-free tokens:
optional sign, then `inf`/`infinity`/`nan` (case-insensitive) or a decimal
literal with an optional exponent.  (Digit-group underscores are not
modelled; the statement tokens have none.) -/
def pyFloatOk (s : String) : Bool :=
  let cs := dropSign s.toList
  let low := cs.map Char.toLower
  low = "inf".toList || low = "infinity".toList || low = "nan".toList
    || floatMantissaOk cs

/-! ### Date Normalizer (source lines 44–89) -/

/-- The `(mm, dd, year)` segments of a date token before year expansion and
range validation, or `none` where the Python code hits `continue`:
a slash-delimited token must split into exactly three segments (any other
count raises `ValueError` at the unpacking, caught and skipped); a slashless
token is stripped to its digits, which must number 8 (`MMDDYYYY`) or 6
(`MMDDYY`). -/
def rawDateParts (date : String) : Option (String × String × String) :=
  if containsSub date "/" then
    match splitOnChar '/' date with
    | [a, b, c] => some (digitsOf a, digitsOf b, digitsOf c)
    | _ => none
  else
    let dc := (digitsOf date).toList
    if dc.length = 8 ∨ dc.length = 6 then
      some (String.mk (dc.take 2), String.mk ((dc.drop 2).take 2), String.mk (dc.drop 4))
    else
      none

/-- A 2-digit year is expanded by prefixing `20`; other lengths pass
through verbatim (source lines 58–61, 66–74). -/
def expandYear (yy : String) : String :=
  if yy.toList.length = 2 then "20" ++ yy else yy

/-- The normalized `(mm, dd, yyyy)` of an accepted date token:
`int(mm)`/`int(dd)` must succeed (they fail only on an empty segment) and
month/day must be in range (source lines 79–84). -/
def parseDateParts (date : String) : Option (String × String × String) :=
  match rawDateParts date with
  | none => none
  | some (mm, dd, yy) =>
    match pyInt? mm, pyInt? dd with
    | some m, some d =>
      if 1 ≤ m ∧ m ≤ 12 ∧ 1 ≤ d ∧ d ≤ 31 then some (mm, dd, expandYear yy)
      else none
    | _, _ => none

/-- The canonical date string `f"{mm}/{dd}/{yyyy}"` (source line 86). -/
def formatDate (mm dd yyyy : String) : String := mm ++ "/" ++ dd ++ "/" ++ yyyy

/-! ### Transaction records (the dict built at source lines 121–128) -/

structure Transaction where
  Date : String
  Number : String
  Description : String
  Withdrawals : String
  Deposits : String
  Balance : String
deriving DecidableEq, Repr

/-! ### Field Disambiguator (source lines 91–115) -/

/-- The check-number step (source lines 91–96): if a second token exists and
is all digits it becomes the check number and the cursor advances to 2;
otherwise the check number is empty and the cursor stays at 1. -/
def checkNumberCursor (parts : List String) : String × Nat :=
  if 1 < parts.length then
    if pyIsdigit (parts.getD 1 "") then (parts.getD 1 "", 2) else ("", 1)
  else ("", 1)

/-- Result of the backward amount scan: the `withdrawal` and `deposit`
strings and the 0-based index at which the loop broke, if it did. -/
structure ScanResult where
  withdrawal : String
  deposit : String
  foundIdx : Option Nat
deriving DecidableEq, Repr

/-- The `if not withdrawal / elif not deposit` assignment made when the loop
hits a parsing token at position `k`, just before `break` (source lines
108–113); the `elif` arm mirrors the source even though the break makes it
unreachable from the loop's initial state. -/
def scanFound (parts : List String) (w d : String) (k : Nat) : ScanResult :=
  if w = "" then ⟨parts.getD k "", d, some k⟩
  else if d = "" then ⟨"", w, some k⟩
  else ⟨w, d, some k⟩

/-- The `while abs(amount_idx) <= len(parts)` loop (source lines 104–115), at
0-based position `k` (Python `amount_idx = k - len`), counting `k` down to 0.
On the first token whose comma-stripped text parses as a float the loop
assigns and breaks. -/
def amountScanAux (parts : List String) (w d : String) : Nat → ScanResult
  | 0 =>
    if pyFloatOk (stripCommas (parts.getD 0 "")) then scanFound parts w d 0
    else ⟨w, d, none⟩
  | k + 1 =>
    if pyFloatOk (stripCommas (parts.getD (k + 1) "")) then scanFound parts w d (k + 1)
    else amountScanAux parts w d k

/-- The whole scan: starts at the second-to-last token (`amount_idx = -2`)
with both fields empty; with fewer than two tokens the loop body never runs. -/
def amountScan (parts : List String) : ScanResult :=
  if 2 ≤ parts.length then amountScanAux parts "" "" (parts.length - 2)
  else ⟨"", "", none⟩

/-- Python's `desc_end` (source line 118) translated to a 0-based exclusive end:
Python keeps `amount_idx` when `abs(amount_idx) < len(parts)` — i.e. the
amount was found strictly after the first token — and otherwise uses `-1`;
`parts[current_idx:desc_end]` with negative `desc_end` is
`(parts.take end).drop current_idx` for `end = len + desc_end`. -/
def descEndOf (parts : List String) (found : Option Nat) : Nat :=
  match found with
  | some k => if 0 < k then k else parts.length - 1
  | none => parts.length - 1

/-- Description Reconstructor (source line 119). -/
def descriptionOf (parts : List String) (cur : Nat) (found : Option Nat) : String :=
  joinSpace ((parts.take (descEndOf parts found)).drop cur)

/-- The description rule as the specification words it, for refinement
comparison with `descriptionOf`: the whitespace-join of the tokens strictly
between the check-number cursor and the index where the amount token was
found, extending to one token before the balance only when the scan found
no numeric token. -/
def specDescription (parts : List String) : String :=
  match (amountScan parts).foundIdx with
  | some k => joinSpace ((parts.take k).drop (checkNumberCursor parts).2)
  | none => joinSpace ((parts.take (parts.length - 1)).drop (checkNumberCursor parts).2)

/-- The amended description rule: as `specDescription`, except that an
amount found at the line's first token (index 0, where
`abs(amount_idx) = len(parts)`) also makes the description extend to one
token before the balance. -/
def specDescriptionAmended (parts : List String) : String :=
  match (amountScan parts).foundIdx with
  | some k =>
    if 0 < k then joinSpace ((parts.take k).drop (checkNumberCursor parts).2)
    else joinSpace ((parts.take (parts.length - 1)).drop (checkNumberCursor parts).2)
  | none => joinSpace ((parts.take (parts.length - 1)).drop (checkNumberCursor parts).2)

/-- Transaction Assembler for a line whose date was accepted
(source lines 91–128). -/
def assemble (parts : List String) (mm dd yyyy : String) : Transaction :=
  let cn := checkNumberCursor parts
  let r := amountScan parts
  { Date := formatDate mm dd yyyy
  , Number := cn.1
  , Description := descriptionOf parts cn.2 r.foundIdx
  , Withdrawals := r.withdrawal
  , Deposits := r.deposit
  , Balance := parts.getLastD "" }

/-- First-character digit gate (source line 45). -/
def firstIsDigit (s : String) : Bool :=
  match s.toList with
  | [] => false
  | c :: _ => c.isDigit

/-- Parse one already-tokenized line into a Transaction, or `none` where the
source hits `continue`.  (An empty token list cannot reach this point: blank
lines are skipped at source line 38, and `split()` tokens are nonempty.) -/
def parseLine : List String → Option Transaction
  | [] => none
  | p0 :: rest =>
    if firstIsDigit p0 then
      match parseDateParts p0 with
      | some (mm, dd, yyyy) => some (assemble (p0 :: rest) mm dd yyyy)
      | none => none
    else none

/-! ### Line Tokenizer / page processing (source lines 23–42) -/

/-- A full header line: contains `Date`, `Number` and `Description`
simultaneously (source line 31). -/
def isFullHeader (line : String) : Bool :=
  containsSub line "Date" && containsSub line "Number" && containsSub line "Description"

/-- Python's `start_idx` (source lines 29–33): one past the first full header line,
or 0 when the page has none. -/
def headerStart (lines : List String) : Nat :=
  match lines.findIdx? isFullHeader with
  | some i => i + 1
  | none => 0

/-- Per-line skip-and-parse (source lines 36–130): skip lines that strip to
empty and lines containing both `Date` and `Number` (Python's
`not line.strip() or 'Date' in line and 'Number' in line`), else tokenize
and parse. -/
def processLine (line : String) : Option Transaction :=
  if line.toList.all Char.isWhitespace then none
  else if containsSub line "Date" && containsSub line "Number" then none
  else parseLine (pySplit line)

/-- All transactions contributed by one page's extracted text. -/
def processPage (pageText : String) : List Transaction :=
  ((splitOnChar '\n' pageText).drop (headerStart (splitOnChar '\n' pageText))).filterMap
    processLine

/-- Models `pd.to_numeric` of a comma-stripped cell with coercing errors:
an optional sign, integer digits, and an optional fraction; anything else
(including the empty string) coerces to NaN, modelled as `none`.
(Exponent forms are not modelled; statement amounts are plain decimals.) -/
def parseDecimal (s : String) : Option ℚ :=
  let cs := s.toList
  let neg : Bool := match cs with
    | '-' :: _ => true
    | _ => false
  let cs2 := dropSign cs
  let ip := cs2.takeWhile Char.isDigit
  let rest := cs2.dropWhile Char.isDigit
  match rest with
  | [] =>
    if ip.isEmpty then none
    else some (if neg then -(digitsToNat ip : ℚ) else (digitsToNat ip : ℚ))
  | '.' :: fr =>
    if fr.all Char.isDigit && (!ip.isEmpty || !fr.isEmpty) then
      let v : ℚ := (digitsToNat ip * 10 ^ fr.length + digitsToNat fr : ℚ) / (10 ^ fr.length : ℚ)
      some (if neg then -v else v)
    else none
  | _ => none

/-- The numeric value of a Transaction amount cell after comma removal. -/
def txnAmount (s : String) : Option ℚ := parseDecimal (stripCommas s)

/-! ### Grouping & Aggregation Engine (source lines 186–243) -/

/-- Python's `get_key_words` (source lines 189–193): the first two whitespace words
of a description, or the whole description when it has fewer than two. -/
def get_key_words (description : String) : String :=
  let words := pySplit description
  if 2 ≤ words.length then joinSpace (words.take 2) else description

/-- Pandas sum of the group's Withdrawals column: NaN cells contribute zero. -/
def wsumOf (g : List Transaction) : ℚ :=
  (g.map (fun t => (txnAmount t.Withdrawals).getD 0)).sum

/-- Pandas sum of the group's Deposits column: NaN cells contribute zero. -/
def dsumOf (g : List Transaction) : ℚ :=
  (g.map (fun t => (txnAmount t.Deposits).getD 0)).sum

/-- One `summary_data` entry, kept structured: its key, its member
transactions, the two sums, `count = len(group)` and `Sort_Order`. -/
structure SummaryEntry where
  key : String
  members : List Transaction
  withdrawalTotal : ℚ
  depositTotal : ℚ
  count : Nat
  sortOrder : Nat
deriving DecidableEq, Repr

/-- Pandas `groupby` iterates distinct keys in sorted order. -/
def sortedKeys (ks : List String) : List String :=
  List.insertionSort (fun a b => a ≤ b) ks.dedup

/-- Pass 1 (source lines 199–215): group by exact description, keep groups
with more than one member. -/
def exactEntries (df : List Transaction) : List SummaryEntry :=
  (sortedKeys (df.map (fun t => t.Description))).filterMap (fun d =>
    let g := df.filter (fun t => t.Description == d)
    if 1 < g.length then some ⟨d, g, wsumOf g, dsumOf g, g.length, 1⟩ else none)

/-- Python's `remaining_df` (source line 218): the rows not consumed by pass 1,
i.e. those whose description occurs only once in `df`. -/
def remainingAfterExact (df : List Transaction) : List Transaction :=
  df.filter (fun t => decide (df.countP (fun u => u.Description == t.Description) ≤ 1))

/-- Pass 2 (source lines 217–237): group the remainder by its first two
description words, keep groups with more than one member. -/
def partialEntries (df : List Transaction) : List SummaryEntry :=
  let rem := remainingAfterExact df
  (sortedKeys (rem.map (fun t => get_key_words t.Description))).filterMap (fun k =>
    let g := rem.filter (fun t => get_key_words t.Description == k)
    if 1 < g.length then some ⟨k, g, wsumOf g, dsumOf g, g.length, 2⟩ else none)

/-! ### Sorting the transactions (source lines 176–186) -/

/-- Chronological value of a `MM/DD/YYYY` string, the order key
`pd.to_datetime` gives the `Date` column.  The sort is only reached for
frames whose every `Date` passed `strptimeDateOk`, where the 0 fallback is
unreachable. -/
def dateVal (s : String) : Nat :=
  match (splitOnChar '/' s).map pyInt? with
  | [some m, some d, some y] => y * 10000 + m * 100 + d
  | _ => 0

/-- Pandas sort by Description ascending then Date ascending (source line 186):
lexicographic on the description string, then the calendar date. -/
def txLe (a b : Transaction) : Prop :=
  a.Description < b.Description
    ∨ (a.Description = b.Description ∧ dateVal a.Date ≤ dateVal b.Date)

instance : DecidableRel txLe := fun a b => by unfold txLe; infer_instance

instance : IsTotal Transaction txLe :=
  ⟨fun a b => by
    rcases lt_trichotomy a.Description b.Description with h | h | h
    · exact Or.inl (Or.inl h)
    · rcases le_total (dateVal a.Date) (dateVal b.Date) with h2 | h2
      · exact Or.inl (Or.inr ⟨h, h2⟩)
      · exact Or.inr (Or.inr ⟨h.symm, h2⟩)
    · exact Or.inr (Or.inl h)⟩

instance : IsTrans Transaction txLe :=
  ⟨fun a b c hab hbc => by
    rcases hab with h1 | ⟨e1, d1⟩
    · rcases hbc with h2 | ⟨e2, _⟩
      · exact Or.inl (h1.trans h2)
      · exact Or.inl (lt_of_lt_of_eq h1 e2)
    · rcases hbc with h2 | ⟨e2, d2⟩
      · exact Or.inl (lt_of_eq_of_lt e1 h2)
      · exact Or.inr ⟨e1.trans e2, d1.trans d2⟩⟩

/-- The sorted transaction frame `df`. -/
def sortTxns (ts : List Transaction) : List Transaction :=
  List.insertionSort txLe ts

/-! ### Final output rows (source lines 196–264) -/

/-- One CSV row: `Date, Number, Description, Withdrawals, Deposits, Balance`,
with the two amount columns numeric-or-blank after `pd.to_numeric`. -/
structure Row where
  Date : String
  Number : String
  Description : String
  Withdrawals : Option ℚ
  Deposits : Option ℚ
  Balance : String
deriving DecidableEq, Repr

/-- A raw transaction's output row. -/
def txRow (t : Transaction) : Row :=
  ⟨t.Date, t.Number, t.Description, txnAmount t.Withdrawals, txnAmount t.Deposits, t.Balance⟩

/-- The blank separator row (source lines 246–253). -/
def blankRow : Row := ⟨"", "", "", none, none, ""⟩

/-- The `Description` label of a summary row (source lines 209, 231). -/
def entryLabel (e : SummaryEntry) : String :=
  if e.sortOrder = 1 then
    "TOTAL for exact matches: " ++ e.key ++ " (" ++ toString e.count ++ " transactions)"
  else
    "TOTAL for partial matches: " ++ e.key ++ "... (" ++ toString e.count ++ " transactions)"

/-- A summary entry's output row: a total is blank unless positive
(source lines 210–211, 232–233). -/
def entryRow (e : SummaryEntry) : Row :=
  ⟨"", "", entryLabel e,
    if 0 < e.withdrawalTotal then some e.withdrawalTotal else none,
    if 0 < e.depositTotal then some e.depositTotal else none,
    ""⟩

/-- The final row sequence written to the CSV (source lines 239–258):
`summary_data` is pass-1 entries then pass-2 entries, and
`sort_values('Sort_Order')` leaves that already-ordered list unchanged;
when there are no summary entries, `final_df` is just the sorted frame. -/
def mainRows (ts : List Transaction) : List Row :=
  let df := sortTxns ts
  let summary := exactEntries df ++ partialEntries df
  if summary.isEmpty then df.map txRow
  else df.map txRow ++ blankRow :: summary.map entryRow

/-- Started with both amount fields empty, the scan can never set the
deposit field: the loop breaks as soon as the first token parses, and at
that moment the withdrawal field is still empty. -/
theorem amountScanAux_deposit_empty (parts : List String) :
    ∀ k, (amountScanAux parts "" "" k).deposit = "" := by
  intro k
  induction k with
  | zero =>
    unfold amountScanAux scanFound
    split <;> simp
  | succ k ih =>
    unfold amountScanAux scanFound
    split
    · simp
    · exact ih

/-- The deposit field of the whole scan is always empty. -/
theorem amountScan_deposit_empty (parts : List String) :
    (amountScan parts).deposit = "" := by
  unfold amountScan
  split
  · exact amountScanAux_deposit_empty parts _
  · rfl

/-- A parsed line is the assembly of its date parts. -/
theorem parseLine_eq_assemble (parts : List String) (tx : Transaction)
    (h : parseLine parts = some tx) :
    ∃ p0 rest mm dd yyyy, parts = p0 :: rest ∧ firstIsDigit p0 = true ∧
      parseDateParts p0 = some (mm, dd, yyyy) ∧ tx = assemble parts mm dd yyyy := by
  match parts with
  | [] => simp [parseLine] at h
  | p0 :: rest =>
    simp only [parseLine] at h
    by_cases hd : firstIsDigit p0
    · rw [if_pos hd] at h
      cases hp : parseDateParts p0 with
      | none => rw [hp] at h; cases h
      | some trip =>
        obtain ⟨mm, dd, yyyy⟩ := trip
        rw [hp] at h
        refine ⟨p0, rest, mm, dd, yyyy, rfl, hd, hp, ?_⟩
        exact (Option.some_inj.mp h).symm
    · rw [if_neg hd] at h; cases h

/-- Every entry of pass 1 is the full exact-description group of its key,
carries that group's sums, count and order tag, and has more than one
member. -/
theorem mem_exactEntries_elim (df : List Transaction) (e : SummaryEntry)
    (he : e ∈ exactEntries df) :
    e.members = df.filter (fun t => t.Description == e.key)
    ∧ e.withdrawalTotal = wsumOf e.members
    ∧ e.depositTotal = dsumOf e.members
    ∧ e.count = e.members.length
    ∧ 1 < e.members.length
    ∧ e.sortOrder = 1 := by
  simp only [exactEntries, List.mem_filterMap] at he
  obtain ⟨d, hd, hsome⟩ := he
  split_ifs at hsome with hlen
  obtain rfl := Option.some_inj.mp hsome
  exact ⟨rfl, rfl, rfl, rfl, hlen, rfl⟩

/-- Every entry of pass 2 is the full first-two-words group of its key over
the pass-1 remainder, and has more than one member. -/
theorem mem_partialEntries_elim (df : List Transaction) (p : SummaryEntry)
    (hp : p ∈ partialEntries df) :
    p.members
        = (remainingAfterExact df).filter
            (fun t => get_key_words t.Description == p.key)
    ∧ p.withdrawalTotal = wsumOf p.members
    ∧ p.count = p.members.length
    ∧ 1 < p.members.length
    ∧ p.sortOrder = 2 := by
  simp only [partialEntries, List.mem_filterMap] at hp
  obtain ⟨k, hk, hsome⟩ := hp
  split_ifs at hsome with hlen
  obtain rfl := Option.some_inj.mp hsome
  exact ⟨rfl, rfl, rfl, hlen, rfl⟩

end WSFS

namespace WSFS

/-! ### Claim theorems -/

/-- C7: the line with tokens
`["01/15/24","123","ELECTRONIC","PAYMENT","VISA","45.67","1234.56"]`
assembles to date `01/15/2024`, check number `123`, description
`ELECTRONIC PAYMENT VISA`, withdrawal `45.67`, empty deposit, and balance
`1234.56`. -/
theorem c7_example_line :
    parseLine ["01/15/24", "123", "ELECTRONIC", "PAYMENT", "VISA", "45.67", "1234.56"]
      = some ⟨"01/15/2024", "123", "ELECTRONIC PAYMENT VISA", "45.67", "", "1234.56"⟩ := by
  decide

/-- C9: the backward amount scan is not bounded below by the check-number
cursor: on tokens `["01/15/24","123","1234.56"]` the token `123` is recorded
both as the check number and as the withdrawal, with an empty description. -/
theorem c9_scan_reuses_check_number :
    parseLine ["01/15/24", "123", "1234.56"]
      = some ⟨"01/15/2024", "123", "", "123", "", "1234.56"⟩
    ∧ ∀ tx : Transaction,
        parseLine ["01/15/24", "123", "1234.56"] = some tx →
          tx.Number = "123" ∧ tx.Withdrawals = "123" ∧ tx.Description = "" := by
  refine ⟨by decide, fun tx h => ?_⟩
  have h2 : some (⟨"01/15/2024", "123", "", "123", "", "1234.56"⟩ : Transaction) = some tx := by
    rw [← h]; decide
  rw [← Option.some_inj.mp h2]
  exact ⟨rfl, rfl, rfl⟩

/-- C1 counterexample: a one-line page whose line does not contain the
header substrings still contributes a transaction, because `start_idx`
defaults to 0 and every line of the page is then processed. -/
theorem c1_counterexample :
    ((splitOnChar '\n' "01/15/24 2.00 3.00").all (fun l => !(isFullHeader l))) = true
    ∧ processPage "01/15/24 2.00 3.00"
        = [⟨"01/15/2024", "", "", "2.00", "", "3.00"⟩] := by
  decide

/-- C1 (amended): on a page none of whose lines contains `Date`, `Number`
and `Description` simultaneously, no error occurs and processing starts at
the first line, so every line of the page is still a transaction
candidate. -/
theorem c1_no_header_processes_all_lines (text : String)
    (h : ∀ l ∈ splitOnChar '\n' text, isFullHeader l = false) :
    processPage text = (splitOnChar '\n' text).filterMap processLine := by
  unfold processPage headerStart
  rw [List.findIdx?_eq_none_iff.mpr h]
  rfl

/-- Witness for C1: the amended statement at the one-line page above. -/
theorem c1_no_header_witness :
    processPage "01/15/24 2.00 3.00"
      = (splitOnChar '\n' "01/15/24 2.00 3.00").filterMap processLine :=
  c1_no_header_processes_all_lines "01/15/24 2.00 3.00" (by decide)

/-- C2: every Transaction produced from a line has an empty (unset)
`Deposits` field: the backward scan always records the found token as the
withdrawal. -/
theorem c2_deposits_always_empty (parts : List String) (tx : Transaction)
    (h : parseLine parts = some tx) : tx.Deposits = "" := by
  obtain ⟨p0, rest, mm, dd, yyyy, hparts, hd, hp, htx⟩ := parseLine_eq_assemble parts tx h
  rw [htx]
  show (amountScan parts).deposit = ""
  exact amountScan_deposit_empty parts

/-- Witness for C2: a concrete line with an amount token still has an empty
deposit field. -/
theorem c2_witness :
    parseLine ["01/15/24", "2.00", "3.00"]
      = some ⟨"01/15/2024", "", "", "2.00", "", "3.00"⟩
    ∧ (⟨"01/15/2024", "", "", "2.00", "", "3.00"⟩ : Transaction).Deposits = "" :=
  ⟨by decide,
   c2_deposits_always_empty ["01/15/24", "2.00", "3.00"] _ (by decide)⟩

/-- C10: a line consisting of exactly one token that is an accepted date
still produces a Transaction, whose balance is the raw date token itself,
with empty check number, empty description and unset amount. -/
theorem c10_single_token_line (t mm dd yyyy : String)
    (hd : firstIsDigit t = true) (h : parseDateParts t = some (mm, dd, yyyy)) :
    parseLine [t] = some ⟨formatDate mm dd yyyy, "", "", "", "", t⟩ := by
  simp only [parseLine]
  rw [if_pos hd, h]
  unfold assemble checkNumberCursor amountScan descriptionOf descEndOf
  simp [joinSpace]

/-- Witness for C10: the single-token line `01/15/24`. -/
theorem c10_witness :
    parseLine ["01/15/24"]
      = some ⟨formatDate "01" "15" "2024", "", "", "", "", "01/15/24"⟩ :=
  c10_single_token_line "01/15/24" "01" "15" "2024" (by decide) (by decide)

/-- C3 counterexample: the slash-delimited token `01/15/1999` is accepted by
the Date Normalizer with the 4-digit year 1999 taken verbatim, so the
normalized year is below 2000. -/
theorem c3_counterexample :
    parseDateParts "01/15/1999" = some ("01", "15", "1999")
    ∧ pyInt? "1999" = some 1999 ∧ 1999 < 2000 := by
  decide

/-- C3 (amended): every accepted date token has month in `[1,12]` and day in
`[1,31]`, and its year segment is expanded by prefixing `20` exactly when it
has two digits; year segments of any other length are copied verbatim (and
need not be at least 2000). -/
theorem c3_accepted_date_ranges (s mm dd yyyy : String)
    (h : parseDateParts s = some (mm, dd, yyyy)) :
    (∃ m, pyInt? mm = some m ∧ 1 ≤ m ∧ m ≤ 12)
    ∧ (∃ d, pyInt? dd = some d ∧ 1 ≤ d ∧ d ≤ 31)
    ∧ ∃ yy, rawDateParts s = some (mm, dd, yy) ∧ yyyy = expandYear yy := by
  unfold parseDateParts at h
  split at h
  · cases h
  · rename_i mm0 dd0 yy0 hr
    split at h
    · rename_i m d hm hd2
      split_ifs at h with hcond
      simp only [Option.some_inj, Prod.mk.injEq] at h
      obtain ⟨e1, e2, e3⟩ := h
      subst e1; subst e2; subst e3
      exact ⟨⟨m, hm, hcond.1, hcond.2.1⟩,
             ⟨d, hd2, hcond.2.2.1, hcond.2.2.2⟩,
             yy0, hr, rfl⟩
    · cases h

/-- Witness for C3: the amended statement at the token `01/15/24`. -/
theorem c3_witness :
    parseDateParts "01/15/24" = some ("01", "15", "2024")
    ∧ ((∃ m, pyInt? "01" = some m ∧ 1 ≤ m ∧ m ≤ 12)
       ∧ (∃ d, pyInt? "15" = some d ∧ 1 ≤ d ∧ d ≤ 31)
       ∧ ∃ yy, rawDateParts "01/15/24" = some ("01", "15", yy) ∧ "2024" = expandYear yy) :=
  ⟨by decide, c3_accepted_date_ranges "01/15/24" "01" "15" "2024" (by decide)⟩

/-- C6 counterexample: on tokens `["12152024","FOO","x"]` the amount is
found at the line's first token (the date), and the produced description is
`FOO` — the token before the balance — whereas the tokens strictly between
the cursor (1) and the amount index (0) would join to the empty string. -/
theorem c6_counterexample :
    parseLine ["12152024", "FOO", "x"]
      = some ⟨"12/15/2024", "", "FOO", "12152024", "", "x"⟩
    ∧ (amountScan ["12152024", "FOO", "x"]).foundIdx = some 0
    ∧ specDescription ["12152024", "FOO", "x"] = ""
    ∧ ("FOO" : String) ≠ "" := by
  decide

/-- C6 (amended): the description of every produced Transaction is the
whitespace-join of the tokens strictly between the check-number cursor and
the amount index, except that when the scan found no numeric token — or
found it at the line's first token — the description extends to one token
before the balance. -/
theorem c6_description_rule (parts : List String) (tx : Transaction)
    (h : parseLine parts = some tx) :
    tx.Description = specDescriptionAmended parts := by
  obtain ⟨p0, rest, mm, dd, yyyy, hparts, hd, hp, htx⟩ := parseLine_eq_assemble parts tx h
  rw [htx]
  show descriptionOf parts (checkNumberCursor parts).2 (amountScan parts).foundIdx
      = specDescriptionAmended parts
  cases hf : (amountScan parts).foundIdx with
  | none => simp [descriptionOf, descEndOf, specDescriptionAmended, hf]
  | some k =>
    by_cases hk : 0 < k
    · simp [descriptionOf, descEndOf, specDescriptionAmended, hf, hk]
    · simp [descriptionOf, descEndOf, specDescriptionAmended, hf, hk]

/-- Witness for C6: the amended description rule at the example line. -/
theorem c6_witness :
    (⟨"01/15/2024", "123", "ELECTRONIC PAYMENT VISA", "45.67", "", "1234.56"⟩
        : Transaction).Description
      = specDescriptionAmended
          ["01/15/24", "123", "ELECTRONIC", "PAYMENT", "VISA", "45.67", "1234.56"] :=
  c6_description_rule ["01/15/24", "123", "ELECTRONIC", "PAYMENT", "VISA", "45.67", "1234.56"]
    _ (by decide)

/-- C4: every exact-match group's withdrawal total is the sum of its
members' withdrawal amounts (unset as zero), its count is the number of
members and is at least 2, no member of an exact-match group belongs to any
partial-match group, and neither pass emits a group of size 1. -/
theorem c4_exact_group_invariants (ts : List Transaction) (e : SummaryEntry)
    (he : e ∈ exactEntries ts) :
    e.withdrawalTotal = (e.members.map (fun t => (txnAmount t.Withdrawals).getD 0)).sum
    ∧ e.count = e.members.length
    ∧ 2 ≤ e.count
    ∧ (∀ p ∈ partialEntries ts, ∀ t ∈ e.members, t ∉ p.members)
    ∧ (∀ p ∈ exactEntries ts ++ partialEntries ts, 2 ≤ p.count) := by
  obtain ⟨hm, hw, hdep, hc, hlen, hord⟩ := mem_exactEntries_elim ts e he
  refine ⟨by rw [hw]; rfl, hc, by omega, ?_, ?_⟩
  · intro p hp t hte htp
    obtain ⟨hpm, _, _, _, _⟩ := mem_partialEntries_elim ts p hp
    rw [hm] at hte
    have htd : t.Description = e.key := by
      have hb := (List.mem_filter.mp hte).2
      exact beq_iff_eq.mp hb
    have hcount : 2 ≤ ts.countP (fun u => u.Description == t.Description) := by
      rw [List.countP_eq_length_filter]
      have hpred : (fun u : Transaction => u.Description == t.Description)
          = (fun u : Transaction => u.Description == e.key) := by
        funext u; rw [htd]
      rw [hpred, ← hm]
      omega
    rw [hpm] at htp
    have hrem : t ∈ remainingAfterExact ts := (List.mem_filter.mp htp).1
    have hle : ts.countP (fun u => u.Description == t.Description) ≤ 1 := by
      have hb := (List.mem_filter.mp hrem).2
      exact of_decide_eq_true hb
    omega
  · intro p hp
    rcases List.mem_append.mp hp with h1 | h2
    · obtain ⟨_, _, _, hc2, hlen2, _⟩ := mem_exactEntries_elim ts p h1
      omega
    · obtain ⟨_, _, hc2, hlen2, _⟩ := mem_partialEntries_elim ts p h2
      omega

/-- Witness for C4: the exact-match group of the two `A B` transactions. -/
theorem c4_witness :
    (⟨"A B",
      [⟨"01/01/2024", "", "A B", "2.00", "", "8.00"⟩,
       ⟨"01/02/2024", "", "A B", "3.50", "", "9.00"⟩],
      (11 / 2 : ℚ), 0, 2, 1⟩ : SummaryEntry).withdrawalTotal
      = ((⟨"A B",
          [⟨"01/01/2024", "", "A B", "2.00", "", "8.00"⟩,
           ⟨"01/02/2024", "", "A B", "3.50", "", "9.00"⟩],
          (11 / 2 : ℚ), 0, 2, 1⟩ : SummaryEntry).members.map
            (fun t => (txnAmount t.Withdrawals).getD 0)).sum
    ∧ (⟨"A B",
        [⟨"01/01/2024", "", "A B", "2.00", "", "8.00"⟩,
         ⟨"01/02/2024", "", "A B", "3.50", "", "9.00"⟩],
        (11 / 2 : ℚ), 0, 2, 1⟩ : SummaryEntry).count = 2
    ∧ (∀ p ∈ partialEntries
          [⟨"01/01/2024", "", "A B", "2.00", "", "8.00"⟩,
           ⟨"01/02/2024", "", "A B", "3.50", "", "9.00"⟩],
        ∀ t ∈ (⟨"A B",
            [⟨"01/01/2024", "", "A B", "2.00", "", "8.00"⟩,
             ⟨"01/02/2024", "", "A B", "3.50", "", "9.00"⟩],
            (11 / 2 : ℚ), 0, 2, 1⟩ : SummaryEntry).members, t ∉ p.members) := by
  have hmem :
      (⟨"A B",
        [⟨"01/01/2024", "", "A B", "2.00", "", "8.00"⟩,
         ⟨"01/02/2024", "", "A B", "3.50", "", "9.00"⟩],
        (11 / 2 : ℚ), 0, 2, 1⟩ : SummaryEntry)
        ∈ exactEntries
            [⟨"01/01/2024", "", "A B", "2.00", "", "8.00"⟩,
             ⟨"01/02/2024", "", "A B", "3.50", "", "9.00"⟩] := by
    have hq : exactEntries
        [⟨"01/01/2024", "", "A B", "2.00", "", "8.00"⟩,
         ⟨"01/02/2024", "", "A B", "3.50", "", "9.00"⟩]
        = [⟨"A B",
            [⟨"01/01/2024", "", "A B", "2.00", "", "8.00"⟩,
             ⟨"01/02/2024", "", "A B", "3.50", "", "9.00"⟩],
            (11 / 2 : ℚ), 0, 2, 1⟩] := by
      with_unfolding_all rfl
    rw [hq]
    exact List.mem_singleton_self _
  obtain ⟨h1, h2, _, hdisj, _⟩ :=
    c4_exact_group_invariants
      [⟨"01/01/2024", "", "A B", "2.00", "", "8.00"⟩,
       ⟨"01/02/2024", "", "A B", "3.50", "", "9.00"⟩] _ hmem
  exact ⟨h1, h2, hdisj⟩

/-- C5 counterexample: a run whose single transaction produces no summary
group emits no blank separator row at all, so the output is not
"transactions, then one blank row, then all (zero) summary rows". -/
theorem c5_counterexample :
    mainRows [⟨"01/01/2024", "", "Z", "2.00", "", "9"⟩]
      ≠ (sortTxns [⟨"01/01/2024", "", "Z", "2.00", "", "9"⟩]).map txRow
        ++ [blankRow]
        ++ ((exactEntries (sortTxns [⟨"01/01/2024", "", "Z", "2.00", "", "9"⟩])
            ++ partialEntries (sortTxns [⟨"01/01/2024", "", "Z", "2.00", "", "9"⟩])).map
              entryRow) := by
  have h1 : mainRows [⟨"01/01/2024", "", "Z", "2.00", "", "9"⟩]
      = [⟨"01/01/2024", "", "Z", some 2, none, "9"⟩] := by
    with_unfolding_all rfl
  have h2 : (sortTxns [⟨"01/01/2024", "", "Z", "2.00", "", "9"⟩]).map txRow
        ++ [blankRow]
        ++ ((exactEntries (sortTxns [⟨"01/01/2024", "", "Z", "2.00", "", "9"⟩])
            ++ partialEntries (sortTxns [⟨"01/01/2024", "", "Z", "2.00", "", "9"⟩])).map
              entryRow)
      = [⟨"01/01/2024", "", "Z", some 2, none, "9"⟩, blankRow] := by
    with_unfolding_all rfl
  rw [h1, h2]
  intro hcontra
  have hlen := congrArg List.length hcontra
  simp at hlen

/-- C5 (amended): the transactions are emitted first, sorted ascending by
description then calendar date (a permutation of the input); when at least
one summary group exists they are followed by exactly one blank row, then
every precedence-1 exact-match row, then every precedence-2 partial-match
row, each tier in its grouping iteration order; when no group exists, no
blank row or summary row is emitted. -/
theorem c5_output_shape (ts : List Transaction) :
    (sortTxns ts).Perm ts
    ∧ List.Sorted txLe (sortTxns ts)
    ∧ (exactEntries (sortTxns ts) ++ partialEntries (sortTxns ts) = [] →
        mainRows ts = (sortTxns ts).map txRow)
    ∧ (exactEntries (sortTxns ts) ++ partialEntries (sortTxns ts) ≠ [] →
        mainRows ts
          = (sortTxns ts).map txRow ++ [blankRow]
            ++ (exactEntries (sortTxns ts)).map entryRow
            ++ (partialEntries (sortTxns ts)).map entryRow)
    ∧ (∀ e ∈ exactEntries (sortTxns ts), e.sortOrder = 1)
    ∧ (∀ e ∈ partialEntries (sortTxns ts), e.sortOrder = 2) := by
  refine ⟨List.perm_insertionSort txLe ts, List.sorted_insertionSort txLe ts, ?_, ?_, ?_, ?_⟩
  · intro hemp
    simp [mainRows, hemp]
  · intro hne
    simp only [mainRows, List.isEmpty_iff, if_neg hne, List.map_append]
    simp
  · intro e he
    exact (mem_exactEntries_elim (sortTxns ts) e he).2.2.2.2.2
  · intro e he
    exact (mem_partialEntries_elim (sortTxns ts) e he).2.2.2.2

/-- Witness for C5: the two-transaction run with one exact-match group
produces the sorted rows, the blank row, and the group row. -/
theorem c5_witness :
    mainRows
        [⟨"01/02/2024", "", "P Q", "3.50", "", "9.00"⟩,
         ⟨"01/01/2024", "", "P Q", "2.00", "", "8.00"⟩]
      = (sortTxns
          [⟨"01/02/2024", "", "P Q", "3.50", "", "9.00"⟩,
           ⟨"01/01/2024", "", "P Q", "2.00", "", "8.00"⟩]).map txRow
        ++ [blankRow]
        ++ (exactEntries (sortTxns
            [⟨"01/02/2024", "", "P Q", "3.50", "", "9.00"⟩,
             ⟨"01/01/2024", "", "P Q", "2.00", "", "8.00"⟩])).map entryRow
        ++ (partialEntries (sortTxns
            [⟨"01/02/2024", "", "P Q", "3.50", "", "9.00"⟩,
             ⟨"01/01/2024", "", "P Q", "2.00", "", "8.00"⟩])).map entryRow := by
  apply (c5_output_shape
      [⟨"01/02/2024", "", "P Q", "3.50", "", "9.00"⟩,
       ⟨"01/01/2024", "", "P Q", "2.00", "", "8.00"⟩]).2.2.2.1
  intro hemp
  have hq : exactEntries (sortTxns
        [⟨"01/02/2024", "", "P Q", "3.50", "", "9.00"⟩,
         ⟨"01/01/2024", "", "P Q", "2.00", "", "8.00"⟩])
      ++ partialEntries (sortTxns
        [⟨"01/02/2024", "", "P Q", "3.50", "", "9.00"⟩,
         ⟨"01/01/2024", "", "P Q", "2.00", "", "8.00"⟩])
      = [⟨"P Q",
          [⟨"01/01/2024", "", "P Q", "2.00", "", "8.00"⟩,
           ⟨"01/02/2024", "", "P Q", "3.50", "", "9.00"⟩],
          (11 / 2 : ℚ), 0, 2, 1⟩] := by
    with_unfolding_all rfl
  rw [hq] at hemp
  cases hemp

end WSFS
